import Mathlib

/-!
Verification development for the behavioral-analytics + prompt-orchestration
layer of the `justdo` task tracker.

Shallow embedding conventions:
* Calendar dates (Python `datetime.date` / ISO strings) are modelled by their
  ordinal number as an `Int`; "the day before d" is `d - 1`, matching
  `date.fromisoformat(today) - timedelta(days=1)`.  ISO-8601 strings are in
  order-preserving bijection with ordinals, so string equality tests in the
  source correspond exactly to `Int` equality here.
* `datetime.now().isoformat()` timestamps are modelled by an opaque `Int` tick.
* Python `int` is `Int`; Python `float` weights/temperatures are `ℚ` (all
  literals in the source are short decimals, and no claim depends on binary
  floating-point rounding).
* Stateful methods become pure functions on a `ProfileData` value; `datetime.now()`
  is threaded in as an explicit `Clock`.
* The upstream model client (`openai`) and the Python stdlib `json` module are
  external collaborators; they are modelled as explicit oracle parameters.
-/

namespace JustDo

/-! ## String helpers (Python `in`, `str.find`, lowercase) -/

/-- Python `needle in hay` on character lists: some contiguous occurrence. -/
def containsSub : List Char → List Char → Bool
  | [], needle => needle.isEmpty
  | h :: t, needle => needle.isPrefixOf (h :: t) || containsSub t needle

/-- Index of the first occurrence of `needle` in `hay` (Python `str.find` from 0). -/
def findSub : List Char → List Char → Option Nat
  | hay, needle =>
    if needle.isPrefixOf hay then some 0
    else
      match hay with
      | [] => none
      | _ :: t => (findSub t needle).map (· + 1)

/-- Python `hay.find(needle, start)`: first occurrence index `≥ start`.
(For `start > hay.length` Python returns `-1` even for an empty needle; this
model agrees with Python whenever `needle ≠ []`, which covers every keyword
in the source tables.) -/
def findFrom (hay needle : List Char) (start : Nat) : Option Nat :=
  (findSub (hay.drop start) needle).map (· + start)

/-- Python `str.strip()`: drop leading and trailing whitespace (executable
char-list implementation; Lean's `String.trim` is byte-position based and does
not reduce well in proofs). -/
def pyStrip (s : String) : String :=
  String.mk (((s.data.dropWhile Char.isWhitespace).reverse.dropWhile
    Char.isWhitespace).reverse)

/-- Python `str.lower()`, character-wise (agrees with `str.lower` on the
ASCII and CJK characters this code base handles; Lean's byte-position based
`String.toLower` does not reduce in proofs). -/
def pyLower (s : String) : String :=
  String.mk (s.data.map Char.toLower)

/-! ## `user_profile.py` data model -/

/-- One entry of `task_categories`: `{"count": …, "completed": …}`. -/
structure CatStat where
  count : Int
  completed : Int
  deriving Repr, DecidableEq

/-- The `stats` sub-document of the profile. -/
structure Stats where
  total_tasks : Int
  completed_tasks : Int
  current_streak : Int
  longest_streak : Int
  last_completed_date : Option Int
  deriving Repr, DecidableEq

/-- The `anxiety_patterns` sub-document. -/
structure AnxietyPatterns where
  high_anxiety_count : Int
  detected_keywords : List String
  deriving Repr, DecidableEq

/-- The `recent_7_days` sub-document. -/
structure Recent7 where
  tasks_completed : Int
  most_active_hour : Option Nat
  deriving Repr, DecidableEq

/-- The full profile document (`UserProfile.data` in the source).
`task_categories` is an insertion-ordered association list, mirroring a
Python `dict` (keys are unique by construction). -/
structure ProfileData where
  version : Int
  created_at : Int
  last_updated : Int
  stats : Stats
  hourly_activity : List Int
  task_categories : List (String × CatStat)
  anxiety_patterns : AnxietyPatterns
  recent_7_days : Recent7
  deriving Repr, DecidableEq

/-- The ambient wall clock at one call: `date.today()` ordinal, `datetime.now().hour`,
and an opaque tick for `datetime.now().isoformat()`. -/
structure Clock where
  day : Int
  hour : Nat
  tick : Int
  deriving Repr, DecidableEq

/-- A task record as consumed by this layer (`{id, text, priority, done}`;
the CRUD layer's `TodoItem` carries at least `id`, `text`, `done`, and the
suggestion paths read a `priority` field off the records they are handed). -/
structure TodoItem where
  id : Int
  text : String
  priority : String
  done : Bool
  deriving Repr, DecidableEq

/-- `UserProfile.VERSION`. -/
def VERSION : Int := 1

/-- `UserProfile._create_new`: the fresh zero-valued profile document. -/
def create_new (c : Clock) : ProfileData :=
  { version := VERSION
    created_at := c.day
    last_updated := c.tick
    stats :=
      { total_tasks := 0
        completed_tasks := 0
        current_streak := 0
        longest_streak := 0
        last_completed_date := none }
    hourly_activity := List.replicate 24 0
    task_categories := []
    anxiety_patterns := { high_anxiety_count := 0, detected_keywords := [] }
    recent_7_days := { tasks_completed := 0, most_active_hour := none } }

/-- `UserProfile._update_hourly_activity`: bump the current hour's counter and
refresh `recent_7_days.most_active_hour` (both reads happen on the updated list,
as in the source). -/
def update_hourly_activity (hour : Nat) (p : ProfileData) : ProfileData :=
  let ha := p.hourly_activity.set hour (p.hourly_activity.getD hour 0 + 1)
  let r7 :=
    match p.recent_7_days.most_active_hour with
    | none => { p.recent_7_days with most_active_hour := some hour }
    | some m =>
      if ha.getD hour 0 > ha.getD m 0 then
        { p.recent_7_days with most_active_hour := some hour }
      else p.recent_7_days
  { p with hourly_activity := ha, recent_7_days := r7 }

/-- `UserProfile._update_streak`, with `today = day`. -/
def update_streak (day : Int) (p : ProfileData) : ProfileData :=
  if p.stats.last_completed_date = some day then p
  else
    let s1 :=
      if p.stats.last_completed_date = some (day - 1) then
        { p.stats with current_streak := p.stats.current_streak + 1 }
      else
        { p.stats with current_streak := 1 }
    let s2 :=
      if s1.current_streak > s1.longest_streak then
        { s1 with longest_streak := s1.current_streak }
      else s1
    { p with stats := { s2 with last_completed_date := some day } }

/-- `UserProfile._classify_task`: first matching keyword list wins
(work, then study, then exercise), else "其他". -/
def classify_task (text : String) : String :=
  let t := (pyLower text).data
  if ["会议", "报告", "文档", "代码", "bug", "修复", "邮件"].any
      (fun k => containsSub t k.data) then "工作"
  else if ["学习", "阅读", "课程", "练习", "笔记"].any
      (fun k => containsSub t k.data) then "学习"
  else if ["跑", "健身", "运动", "瑜伽", "锻炼"].any
      (fun k => containsSub t k.data) then "运动"
  else "其他"

/-- Update the first binding of `key` in an insertion-ordered association list
(Python `dict` in-place update; keys are unique). -/
def assocUpdate : List (String × CatStat) → String → (CatStat → CatStat) →
    List (String × CatStat)
  | [], _, _ => []
  | (k, v) :: rest, key, f =>
    if k = key then (k, f v) :: rest else (k, v) :: assocUpdate rest key f

/-- `UserProfile._update_categories`. -/
def update_categories (todo : TodoItem) (action : String) (p : ProfileData) :
    ProfileData :=
  let category := classify_task todo.text
  let tc :=
    if (p.task_categories.lookup category).isNone then
      p.task_categories ++ [(category, ⟨0, 0⟩)]
    else p.task_categories
  let tc2 :=
    if action = "complete" then
      assocUpdate tc category (fun cs => { cs with completed := cs.completed + 1 })
    else tc
  let tc3 := assocUpdate tc2 category (fun cs => { cs with count := cs.count + 1 })
  { p with task_categories := tc3 }

/-- `UserProfile.record_task`. -/
def record_task (c : Clock) (todo : TodoItem) (action : String) (p : ProfileData) :
    ProfileData :=
  let p1 :=
    if action = "add" then
      { p with stats := { p.stats with total_tasks := p.stats.total_tasks + 1 } }
    else if action = "complete" then
      let pa := { p with stats :=
        { p.stats with completed_tasks := p.stats.completed_tasks + 1 } }
      let pb := update_hourly_activity c.hour pa
      let pc := update_streak c.day pb
      let pd := update_categories todo ("complete") pc
      { pd with recent_7_days :=
        { pd.recent_7_days with tasks_completed := pd.recent_7_days.tasks_completed + 1 } }
    else if action = "delete" then
      { p with stats := { p.stats with total_tasks := max 0 (p.stats.total_tasks - 1) } }
    else p
  { p1 with last_updated := c.tick }

/-! ## Streak specification (claim C1) -/

/-- The `(current_streak, longest_streak, last_completed_date)` view of a profile. -/
structure StreakView where
  current : Int
  longest : Int
  last : Option Int
  deriving Repr, DecidableEq

/-- Project the streak-relevant fields out of a profile. -/
def ProfileData.streakView (p : ProfileData) : StreakView :=
  ⟨p.stats.current_streak, p.stats.longest_streak, p.stats.last_completed_date⟩

/-- Streak step as the specification words it: a second completion on the same
day changes nothing; the streak increments by 1 exactly when the completion day
is one calendar day after the last recorded one, and otherwise (including the
first completion ever) resets to 1; the longest streak is the running maximum
of the current streak. -/
def streakSpecStep (day : Int) (s : StreakView) : StreakView :=
  if s.last = some day then s
  else
    let cur := if s.last = some (day - 1) then s.current + 1 else 1
    ⟨cur, max s.longest cur, some day⟩

/-- A run of completion events from a fresh profile: each event carries the
wall clock at the call and the completed item. -/
def runCompletions (c0 : Clock) (evs : List (Clock × TodoItem)) : ProfileData :=
  evs.foldl (fun p e => record_task e.1 e.2 ("complete") p) (create_new c0)

lemma streakView_record_complete (c : Clock) (t : TodoItem) (p : ProfileData) :
    (record_task c t ("complete") p).streakView = streakSpecStep c.day p.streakView := by
  unfold record_task
  rw [if_neg (by decide : ¬("complete" : String) = "add"),
    if_pos (rfl : ("complete" : String) = "complete")]
  simp only [update_hourly_activity, update_categories, update_streak,
    ProfileData.streakView, streakSpecStep]
  split
  · rfl
  · split <;> split <;> simp_all <;> omega

lemma streakView_runCompletions (evs : List (Clock × TodoItem)) (p : ProfileData) :
    (evs.foldl (fun p e => record_task e.1 e.2 ("complete") p) p).streakView
      = evs.foldl (fun s e => streakSpecStep e.1.day s) p.streakView := by
  induction evs generalizing p with
  | nil => rfl
  | cons e rest ih =>
    simp only [List.foldl_cons, ih, streakView_record_complete]

lemma streakSpecStep_longest (day : Int) (s : StreakView)
    (h : s.current ≤ s.longest) :
    (streakSpecStep day s).longest = max s.longest (streakSpecStep day s).current := by
  unfold streakSpecStep
  split
  · exact (max_eq_left h).symm
  · rfl

lemma streakSpecStep_inv (day : Int) (s : StreakView)
    (h : s.current ≤ s.longest) :
    (streakSpecStep day s).current ≤ (streakSpecStep day s).longest := by
  unfold streakSpecStep
  split
  · exact h
  · exact le_max_right _ _

lemma spec_running_max (evs : List (Clock × TodoItem)) :
    ∀ (s : StreakView) (a : Int), max a s.current = s.longest →
      (evs.foldl (fun s e => streakSpecStep e.1.day s) s).longest
        = ((evs.scanl (fun s e => streakSpecStep e.1.day s) s).map
            (fun v => v.current)).foldl max a := by
  induction evs with
  | nil =>
    intro s a ha
    simp only [List.foldl_nil, List.scanl_nil, List.map_cons, List.map_nil,
      List.foldl_cons]
    exact ha.symm
  | cons e rest ih =>
    intro s a ha
    have hinv : s.current ≤ s.longest := by
      rw [← ha]; exact le_max_right a s.current
    have hlong := streakSpecStep_longest e.1.day s hinv
    rw [List.foldl_cons, List.scanl_cons, List.singleton_append, List.map_cons,
      List.foldl_cons]
    exact ih (streakSpecStep e.1.day s) (max a s.current)
      (by rw [ha, ← hlong])

lemma scanl_streakView (evs : List (Clock × TodoItem)) (p : ProfileData) :
    (evs.scanl (fun p e => record_task e.1 e.2 ("complete") p) p).map
        ProfileData.streakView
      = evs.scanl (fun s e => streakSpecStep e.1.day s) p.streakView := by
  induction evs generalizing p with
  | nil => rfl
  | cons e rest ih =>
    rw [List.scanl_cons, List.scanl_cons, List.singleton_append,
      List.singleton_append, List.map_cons, ih, streakView_record_complete]

/-- C1: from a fresh profile, for every sequence of completion events the
streak fields evolve exactly by the specification step `streakSpecStep`
(increment by 1 exactly when the day is one calendar day after the last
recorded completion day, reset to 1 on any other gap including the first
completion, no change on a repeated same-day completion), and
`longest_streak` equals the running maximum of `current_streak` over the run. -/
theorem C1_streak_update (c0 : Clock) (evs : List (Clock × TodoItem)) :
    (runCompletions c0 evs).streakView
      = evs.foldl (fun s e => streakSpecStep e.1.day s) ⟨0, 0, none⟩
    ∧ (runCompletions c0 evs).stats.longest_streak
      = ((evs.scanl (fun p e => record_task e.1 e.2 ("complete") p)
            (create_new c0)).map (fun p => p.stats.current_streak)).foldl max 0 := by
  constructor
  · exact streakView_runCompletions evs (create_new c0)
  · have h1 := streakView_runCompletions evs (create_new c0)
    have h2 := spec_running_max evs (create_new c0).streakView 0
      (by norm_num [create_new, ProfileData.streakView])
    have h4 : ((evs.scanl (fun p e => record_task e.1 e.2 ("complete") p)
          (create_new c0)).map (fun p => p.stats.current_streak)).foldl max 0
        = (((evs.scanl (fun p e => record_task e.1 e.2 ("complete") p)
            (create_new c0)).map ProfileData.streakView).map
              (fun v => v.current)).foldl max 0 := by
      rw [List.map_map]; rfl
    rw [h4, scanl_streakView evs (create_new c0)]
    have h5 : (runCompletions c0 evs).stats.longest_streak
        = ((runCompletions c0 evs).streakView).longest := rfl
    rw [h5, runCompletions, h1]
    exact h2

/-! ## Claims C10 (frame condition) and C8 (unenforced invariant) -/

/-- C10: for every action other than `add`, `complete` and `delete`,
`record_task` changes only the `last_updated` timestamp: stats (totals,
streaks, last completed date), the hourly histogram, the category histogram,
the anxiety patterns and the `recent_7_days` block are all left unchanged. -/
theorem C10_record_task_frame (c : Clock) (t : TodoItem) (a : String)
    (p : ProfileData) (h1 : a ≠ "add") (h2 : a ≠ "complete") (h3 : a ≠ "delete") :
    record_task c t a p = { p with last_updated := c.tick } := by
  unfold record_task
  rw [if_neg h1, if_neg h2, if_neg h3]

/-- Witness for `C10_record_task_frame` at a concrete no-op action. -/
theorem C10_record_task_frame_witness :
    record_task ⟨5, 3, 77⟩ ⟨1, "写代码", "high", false⟩ ("touch")
        (create_new ⟨0, 0, 0⟩)
      = { create_new ⟨0, 0, 0⟩ with last_updated := 77 } :=
  C10_record_task_frame ⟨5, 3, 77⟩ ⟨1, "写代码", "high", false⟩ ("touch")
    (create_new ⟨0, 0, 0⟩) (by decide) (by decide) (by decide)

lemma record_delete_stats (c : Clock) (t : TodoItem) (q : ProfileData) :
    (record_task c t ("delete") q).stats.completed_tasks = q.stats.completed_tasks
      ∧ (record_task c t ("delete") q).stats.total_tasks
        = max 0 (q.stats.total_tasks - 1) := by
  unfold record_task
  rw [if_neg (by decide : ¬("delete" : String) = "add"),
    if_neg (by decide : ¬("delete" : String) = "complete"),
    if_pos (rfl : ("delete" : String) = "delete")]
  exact ⟨rfl, rfl⟩

lemma record_complete_total (c : Clock) (t : TodoItem) (q : ProfileData) :
    (record_task c t ("complete") q).stats.total_tasks = q.stats.total_tasks := by
  unfold record_task
  rw [if_neg (by decide : ¬("complete" : String) = "add"),
    if_pos (rfl : ("complete" : String) = "complete")]
  simp only [update_hourly_activity, update_categories, update_streak]
  split
  · rfl
  · split <;> split <;> rfl

/-- C8: the invariant `completed_tasks ≤ total_tasks` is not enforced: the
trace add, complete, delete of the completed item leaves a fresh profile with
`completed_tasks = 1 > 0 = total_tasks`; in general `delete` floors
`total_tasks` at zero and never adjusts `completed_tasks`, while `complete`
increments `completed_tasks` without touching `total_tasks`. -/
theorem C8_completed_not_bounded :
    ((record_task ⟨3, 20, 3⟩ ⟨1, "写报告", "high", true⟩ ("delete")
        (record_task ⟨2, 10, 2⟩ ⟨1, "写报告", "high", false⟩ ("complete")
          (record_task ⟨1, 9, 1⟩ ⟨1, "写报告", "high", false⟩ ("add")
            (create_new ⟨0, 0, 0⟩)))).stats.completed_tasks = 1
      ∧ (record_task ⟨3, 20, 3⟩ ⟨1, "写报告", "high", true⟩ ("delete")
          (record_task ⟨2, 10, 2⟩ ⟨1, "写报告", "high", false⟩ ("complete")
            (record_task ⟨1, 9, 1⟩ ⟨1, "写报告", "high", false⟩ ("add")
              (create_new ⟨0, 0, 0⟩)))).stats.total_tasks = 0)
    ∧ ∀ (c : Clock) (t : TodoItem) (q : ProfileData),
        (record_task c t ("delete") q).stats.completed_tasks
            = q.stats.completed_tasks
        ∧ (record_task c t ("delete") q).stats.total_tasks
            = max 0 (q.stats.total_tasks - 1)
        ∧ (record_task c t ("complete") q).stats.total_tasks
            = q.stats.total_tasks := by
  refine ⟨by decide, fun c t q => ?_⟩
  exact ⟨(record_delete_stats c t q).1, (record_delete_stats c t q).2,
    record_complete_total c t q⟩

/-! ## JSON documents, profile serialization, load and save (claims C2, C6)

The profile file holds a JSON document.  Python's `json.dumps`/`json.loads`
round-trip is the identity on JSON values (no floats occur in the profile), so
the file is modelled as holding the JSON value itself, and a file state is
classified by its observable behaviour on `Path.read_text` + `json.loads`. -/

/-- A JSON value (numbers restricted to integers: every number in the profile
document is a Python `int`). -/
inductive Json where
  | null
  | bool (b : Bool)
  | num (n : Int)
  | str (s : String)
  | arr (elems : List Json)
  | obj (fields : List (String × Json))
  deriving Repr

/-- Serialization of one `task_categories` entry. -/
def CatStat.toJson (cs : CatStat) : Json :=
  .obj [("count", .num cs.count), ("completed", .num cs.completed)]

/-- Serialization of an optional integer field (`None` becomes JSON null). -/
def optIntToJson : Option Int → Json
  | none => .null
  | some n => .num n

/-- Serialization of an optional hour field. -/
def optNatToJson : Option Nat → Json
  | none => .null
  | some n => .num n

/-- Serialization of the `stats` sub-document. -/
def Stats.toJson (s : Stats) : Json :=
  .obj [("total_tasks", .num s.total_tasks),
        ("completed_tasks", .num s.completed_tasks),
        ("current_streak", .num s.current_streak),
        ("longest_streak", .num s.longest_streak),
        ("last_completed_date", optIntToJson s.last_completed_date)]

/-- Serialization of the whole profile document, mirroring the key order of
`_create_new` (Python dicts preserve insertion order). -/
def ProfileData.toJson (p : ProfileData) : Json :=
  .obj [("version", .num p.version),
        ("created_at", .num p.created_at),
        ("last_updated", .num p.last_updated),
        ("stats", p.stats.toJson),
        ("hourly_activity", .arr (p.hourly_activity.map Json.num)),
        ("task_categories", .obj (p.task_categories.map (fun kv => (kv.1, kv.2.toJson)))),
        ("anxiety_patterns",
          .obj [("high_anxiety_count", .num p.anxiety_patterns.high_anxiety_count),
                ("detected_keywords", .arr (p.anxiety_patterns.detected_keywords.map Json.str))]),
        ("recent_7_days",
          .obj [("tasks_completed", .num p.recent_7_days.tasks_completed),
                ("most_active_hour", optNatToJson p.recent_7_days.most_active_hour)])]

/-- Decode a JSON array of integers. -/
def intsOfJson : List Json → Option (List Int)
  | [] => some []
  | .num n :: rest => (intsOfJson rest).map (n :: ·)
  | _ => none

/-- Decode a JSON array of strings. -/
def strsOfJson : List Json → Option (List String)
  | [] => some []
  | .str s :: rest => (strsOfJson rest).map (s :: ·)
  | _ => none

/-- Decode the `task_categories` object. -/
def catsOfJson : List (String × Json) → Option (List (String × CatStat))
  | [] => some []
  | (k, .obj [("count", .num a), ("completed", .num b)]) :: rest =>
    (catsOfJson rest).map ((k, (⟨a, b⟩ : CatStat)) :: ·)
  | _ => none

/-- Decode an optional integer field. -/
def optIntOfJson : Json → Option (Option Int)
  | .null => some none
  | .num n => some (some n)
  | _ => none

/-- Decode an optional hour field. -/
def optNatOfJson : Json → Option (Option Nat)
  | .null => some none
  | .num n => some (some n.toNat)
  | _ => none

/-- Decode the `stats` sub-document. -/
def statsOfJson : Json → Option Stats
  | .obj [("total_tasks", .num a), ("completed_tasks", .num b),
          ("current_streak", .num c), ("longest_streak", .num d),
          ("last_completed_date", l)] =>
    (optIntOfJson l).map (fun lo => ⟨a, b, c, d, lo⟩)
  | _ => none

/-- Decode the `anxiety_patterns` sub-document. -/
def apOfJson : Json → Option AnxietyPatterns
  | .obj [("high_anxiety_count", .num hac), ("detected_keywords", .arr dk)] =>
    (strsOfJson dk).map (fun kws => ⟨hac, kws⟩)
  | _ => none

/-- Decode the `recent_7_days` sub-document. -/
def r7OfJson : Json → Option Recent7
  | .obj [("tasks_completed", .num t7), ("most_active_hour", mah)] =>
    (optNatOfJson mah).map (fun mh => ⟨t7, mh⟩)
  | _ => none

/-- Decode a profile document in the canonical serialized shape; this is the
field-by-field reading of the loaded dict, used to state that the loaded
document carries exactly the data that was saved. -/
def profileOfJson : Json → Option ProfileData
  | .obj [("version", .num v), ("created_at", .num ca), ("last_updated", .num lu),
          ("stats", s), ("hourly_activity", .arr ha), ("task_categories", .obj tc),
          ("anxiety_patterns", ap), ("recent_7_days", r7)] => do
    let st ← statsOfJson s
    let hl ← intsOfJson ha
    let cats ← catsOfJson tc
    let a ← apOfJson ap
    let r ← r7OfJson r7
    some ⟨v, ca, lu, st, hl, cats, a, r⟩
  | _ => none

/-- The observable state of the profile file at load time: absent, existing
but unreadable (`read_text` raises, e.g. `PermissionError`), readable but not
valid JSON (`json.loads` raises `JSONDecodeError`), or parsing to a JSON value. -/
inductive FileState where
  | absent
  | denied (msg : String)
  | invalid (msg : String)
  | json (doc : Json)
  deriving Repr

/-- `UserProfile._load_or_create`: the `try` only catches `JSONDecodeError`
and `KeyError`, so an exception from `read_text` itself (the `denied` state)
propagates, and `content.get` on a non-object document raises
`AttributeError`; a mismatched or missing `version` yields a fresh profile. -/
def load_or_create (c : Clock) (fs : FileState) : Except String Json :=
  match fs with
  | .absent => .ok (create_new c).toJson
  | .denied msg => .error msg
  | .invalid _ => .ok (create_new c).toJson
  | .json doc =>
    match doc with
    | .obj fields =>
      match fields.lookup ("version") with
      | some (.num v) => if v = VERSION then .ok doc else .ok (create_new c).toJson
      | _ => .ok (create_new c).toJson
    | _ => .error ("AttributeError")

/-- `UserProfile.save`: serializes `data` and writes it; the 10 KiB ceiling
check only invokes `_cleanup`, which is `pass` in the source, and the content
string was serialized before that call, so the written document is always the
serialization of `data`. -/
def save (p : ProfileData) : FileState := .json p.toJson

/-- A profile reached from a fresh profile by a sequence of `record_task`
calls (each event carries the wall clock at the call, the item and the action). -/
def runEvents (c0 : Clock) (evs : List (Clock × TodoItem × String)) : ProfileData :=
  evs.foldl (fun p e => record_task e.1 e.2.1 e.2.2 p) (create_new c0)

lemma intsOfJson_map (l : List Int) : intsOfJson (l.map Json.num) = some l := by
  induction l with
  | nil => rfl
  | cons x xs ih => simp [intsOfJson, ih]

lemma strsOfJson_map (l : List String) : strsOfJson (l.map Json.str) = some l := by
  induction l with
  | nil => rfl
  | cons x xs ih => simp [strsOfJson, ih]

lemma catsOfJson_map (l : List (String × CatStat)) :
    catsOfJson (l.map (fun kv => (kv.1, kv.2.toJson))) = some l := by
  induction l with
  | nil => rfl
  | cons x xs ih =>
    obtain ⟨k, ⟨a, b⟩⟩ := x
    simp only [List.map_cons]
    rw [show CatStat.toJson ⟨a, b⟩
        = Json.obj [("count", Json.num a), ("completed", Json.num b)] from rfl]
    simp only [catsOfJson]
    rw [ih]
    rfl

lemma optIntOfJson_round (o : Option Int) : optIntOfJson (optIntToJson o) = some o := by
  cases o <;> rfl

lemma optNatOfJson_round (o : Option Nat) : optNatOfJson (optNatToJson o) = some o := by
  cases o with
  | none => rfl
  | some n => simp [optNatToJson, optNatOfJson]

lemma statsOfJson_round (s : Stats) : statsOfJson s.toJson = some s := by
  obtain ⟨a, b, c, d, l⟩ := s
  simp [Stats.toJson, statsOfJson, optIntOfJson_round]

lemma apOfJson_round (a : AnxietyPatterns) :
    apOfJson (.obj [("high_anxiety_count", .num a.high_anxiety_count),
      ("detected_keywords", .arr (a.detected_keywords.map Json.str))]) = some a := by
  obtain ⟨hac, dk⟩ := a
  simp [apOfJson, strsOfJson_map]

lemma r7OfJson_round (r : Recent7) :
    r7OfJson (.obj [("tasks_completed", .num r.tasks_completed),
      ("most_active_hour", optNatToJson r.most_active_hour)]) = some r := by
  obtain ⟨t7, mah⟩ := r
  simp [r7OfJson, optNatOfJson_round]

set_option maxHeartbeats 1000000 in
lemma profileOfJson_round (p : ProfileData) : profileOfJson p.toJson = some p := by
  obtain ⟨v, ca, lu, st, ha, tc, ap, r7⟩ := p
  simp only [ProfileData.toJson, profileOfJson]
  rw [statsOfJson_round, intsOfJson_map, catsOfJson_map, apOfJson_round,
    r7OfJson_round]
  rfl

lemma record_task_version (c : Clock) (t : TodoItem) (a : String) (p : ProfileData) :
    (record_task c t a p).version = p.version := by
  simp only [record_task, update_categories, update_hourly_activity, update_streak]
  split
  · rfl
  · split
    · split <;> rfl
    · split <;> rfl

lemma runEvents_version (c0 : Clock) (evs : List (Clock × TodoItem × String)) :
    (runEvents c0 evs).version = VERSION := by
  unfold runEvents
  suffices h : ∀ p : ProfileData, p.version = VERSION →
      (evs.foldl (fun p e => record_task e.1 e.2.1 e.2.2 p) p).version = VERSION from
    h (create_new c0) rfl
  induction evs with
  | nil => intro p hp; exact hp
  | cons e rest ih =>
    intro p hp
    rw [List.foldl_cons]
    exact ih _ (by rw [record_task_version]; exact hp)

lemma load_of_saved (c : Clock) (p : ProfileData) (h : p.version = VERSION) :
    load_or_create c (save p) = .ok p.toJson := by
  unfold save load_or_create
  have hd : p.toJson = Json.obj (("version", Json.num p.version) ::
      [("created_at", .num p.created_at),
       ("last_updated", .num p.last_updated),
       ("stats", p.stats.toJson),
       ("hourly_activity", .arr (p.hourly_activity.map Json.num)),
       ("task_categories", .obj (p.task_categories.map (fun kv => (kv.1, kv.2.toJson)))),
       ("anxiety_patterns",
         .obj [("high_anxiety_count", .num p.anxiety_patterns.high_anxiety_count),
               ("detected_keywords", .arr (p.anxiety_patterns.detected_keywords.map Json.str))]),
       ("recent_7_days",
         .obj [("tasks_completed", .num p.recent_7_days.tasks_completed),
               ("most_active_hour", optNatToJson p.recent_7_days.most_active_hour)])]) := rfl
  rw [hd]
  simp [List.lookup, h]

/-- C6: for every profile state reachable from a fresh profile through
`record_task` calls, saving and loading from the same path yields exactly the
saved document, and that document decodes field-by-field (all counters, streak
fields, the 24-slot hourly histogram, category histograms, and the remaining
blocks) to the in-memory profile that was saved. -/
theorem C6_save_load_roundtrip (c0 cl : Clock)
    (evs : List (Clock × TodoItem × String)) :
    load_or_create cl (save (runEvents c0 evs)) = .ok (runEvents c0 evs).toJson
    ∧ profileOfJson (runEvents c0 evs).toJson = some (runEvents c0 evs) :=
  ⟨load_of_saved cl (runEvents c0 evs) (runEvents_version c0 evs),
   profileOfJson_round (runEvents c0 evs)⟩

/-- C2 counterexample: an unreadable profile file (a permission error raised
by `read_text`) makes `_load_or_create` propagate the exception rather than
silently return a fresh zero-valued profile: only `JSONDecodeError` and
`KeyError` are caught. -/
theorem C2_permission_error_propagates :
    load_or_create ⟨0, 0, 0⟩ (FileState.denied ("Permission denied"))
        = Except.error ("Permission denied")
    ∧ load_or_create ⟨0, 0, 0⟩ (FileState.denied ("Permission denied"))
        ≠ Except.ok (create_new ⟨0, 0, 0⟩).toJson :=
  ⟨rfl, fun h => Except.noConfusion h⟩

/-- C2 amended: profile load fails soft — returning a fresh zero-valued
profile — when the file is absent, when its content is not valid JSON, and
when it holds a JSON object whose `version` field is missing, non-numeric, or
different from the current schema version; but an unreadable file (permission
error on read) propagates the exception to the caller. -/
theorem C2_load_fails_soft (c : Clock) (msg : String)
    (fields : List (String × Json))
    (hv : ∀ v : Int, fields.lookup ("version") = some (Json.num v) → v ≠ VERSION) :
    load_or_create c FileState.absent = .ok (create_new c).toJson
    ∧ load_or_create c (FileState.invalid msg) = .ok (create_new c).toJson
    ∧ load_or_create c (FileState.json (Json.obj fields)) = .ok (create_new c).toJson
    ∧ ∀ m : String, load_or_create c (FileState.denied m) = .error m := by
  refine ⟨rfl, rfl, ?_, fun m => rfl⟩
  have hred : load_or_create c (FileState.json (Json.obj fields))
      = match fields.lookup ("version") with
        | some (.num v) =>
          if v = VERSION then .ok (Json.obj fields) else .ok (create_new c).toJson
        | _ => .ok (create_new c).toJson := rfl
  rw [hred]
  rcases hl : fields.lookup ("version") with _ | j
  · rfl
  · cases j with
    | num v => exact if_neg (hv v hl)
    | null => rfl
    | bool b => rfl
    | str s => rfl
    | arr xs => rfl
    | obj fs => rfl

/-- Witness for `C2_load_fails_soft` at a concrete mismatched-version file. -/
theorem C2_load_fails_soft_witness :
    load_or_create ⟨1, 2, 3⟩ FileState.absent = .ok (create_new ⟨1, 2, 3⟩).toJson
    ∧ load_or_create ⟨1, 2, 3⟩ (FileState.invalid ("Expecting value"))
        = .ok (create_new ⟨1, 2, 3⟩).toJson
    ∧ load_or_create ⟨1, 2, 3⟩ (FileState.json (Json.obj [("version", Json.num 2)]))
        = .ok (create_new ⟨1, 2, 3⟩).toJson
    ∧ ∀ m : String, load_or_create ⟨1, 2, 3⟩ (FileState.denied m) = .error m :=
  C2_load_fails_soft ⟨1, 2, 3⟩ ("Expecting value") [("version", Json.num 2)]
    (by intro v hlk; simp [List.lookup] at hlk; subst hlk; decide)

/-! ## Model invocation engine and feedback orchestrator (claims C3, C7)

The upstream client call `client.chat.completions.create(**params)` is
modelled by an oracle: `complete` gives the non-streaming outcome (completion
text or raised exception), `chunks` gives the streaming outcome (the list of
delta contents the chunked transport would deliver, or the exception raised
when the request is first driven).  A Python generator is lazy: creating it
runs no body code, so `generate(stream=True)` returns a generator value whose
stored outcome is only observed at consumption time. -/

/-- `AIConfig` from `ai.py`. -/
structure AIConfig where
  api_key : String
  model : String
  max_tokens : Nat
  temperature : ℚ
  deriving Repr, DecidableEq

/-- `_should_disable_thinking`: GLM-4.x model-name prefix check. -/
def should_disable_thinking (cfg : AIConfig) : Bool :=
  cfg.model.startsWith ("glm-4")

/-- The request parameters handed to the provider client, including whether
the `extra_body = {"thinking": {"type": "disabled"}}` block was attached. -/
structure ModelParams where
  model : String
  messages : List (String × String)
  max_tokens : Nat
  temperature : ℚ
  stream : Bool
  thinking_disabled : Bool
  deriving Repr, DecidableEq

/-- Provider behaviour for one call. -/
structure ModelOracle where
  complete : ModelParams → Except String String
  chunks : ModelParams → Except String (List String)

instance {ε α : Type} [DecidableEq ε] [DecidableEq α] : DecidableEq (Except ε α) :=
  fun a b =>
    match a, b with
    | .ok x, .ok y =>
      if h : x = y then isTrue (by rw [h])
      else isFalse (fun hc => by cases hc; exact h rfl)
    | .error x, .error y =>
      if h : x = y then isTrue (by rw [h])
      else isFalse (fun hc => by cases hc; exact h rfl)
    | .ok _, .error _ => isFalse (fun hc => Except.noConfusion hc)
    | .error _, .ok _ => isFalse (fun hc => Except.noConfusion hc)

/-- A value returned by `EmotionEngine.generate` / `trigger_emotion`: either a
string, or a (lazy, not yet consumed) generator whose consumption produces the
stored outcome. -/
inductive PyVal where
  | str (s : String)
  | gen (g : Except String (List String))
  deriving Repr, DecidableEq

/-- `EmotionEngine.generate`: non-streaming performs the blocking call and
strips the completion; streaming returns the generator immediately — the
provider call happens inside the generator body (`_generate_stream`), so no
exception can escape at construction time, and chunks with empty delta
content are filtered out at consumption. -/
def EmotionEngine.generate (cfg : AIConfig) (oracle : ModelOracle) (prompt : String)
    (max_tokens : Nat) (temperature : ℚ) (stream : Bool) : Except String PyVal :=
  let params : ModelParams :=
    { model := cfg.model
      messages := [("user", prompt)]
      max_tokens := max_tokens
      temperature := temperature
      stream := stream
      thinking_disabled := should_disable_thinking cfg }
  if stream then
    .ok (.gen ((oracle.chunks params).map (fun cs => cs.filter (fun c => c ≠ ""))))
  else
    (oracle.complete params).map (fun s => .str (pyStrip s))

/-- `EmotionScenario` from `emotion.py` (field defaults as in the dataclass). -/
structure EmotionScenario where
  name : String
  prompt_template : String
  max_tokens : Nat := 80
  temperature : ℚ := 8/10
  stream : Bool := false
  fallback_messages : Option (List String) := none
  deriving Repr, DecidableEq

/-- Modelled from the spec: the prompt template texts live in `prompts.py`,
which is not among the sources; the spec describes them only as strings with
named placeholders, and no claim depends on their text, so each is an opaque
distinct constant. -/
def PROMPT_TASK_COMPLETED : String := "PROMPT_TASK_COMPLETED"

/-- Modelled from the spec: see `PROMPT_TASK_COMPLETED`. -/
def PROMPT_LIST_CLEARED : String := "PROMPT_LIST_CLEARED"

/-- Modelled from the spec: see `PROMPT_TASK_COMPLETED`. -/
def PROMPT_TASK_ADDED : String := "PROMPT_TASK_ADDED"

/-- Modelled from the spec: see `PROMPT_TASK_COMPLETED`. -/
def PROMPT_SUGGEST_ENHANCED : String := "PROMPT_SUGGEST_ENHANCED"

/-- The `suggest` scenario of the registry (configured for streaming). -/
def suggestScenario : EmotionScenario :=
  { name := "智能建议", prompt_template := PROMPT_SUGGEST_ENHANCED,
    max_tokens := 300, stream := true }

/-- `EMOTION_SCENARIOS`: the fixed scenario registry. -/
def EMOTION_SCENARIOS : String → Option EmotionScenario := fun key =>
  if key = "task_completed" then
    some { name := "任务完成", prompt_template := PROMPT_TASK_COMPLETED, max_tokens := 60 }
  else if key = "list_cleared" then
    some { name := "任务清空", prompt_template := PROMPT_LIST_CLEARED, max_tokens := 200 }
  else if key = "task_added" then
    some { name := "任务添加", prompt_template := PROMPT_TASK_ADDED, max_tokens := 60 }
  else if key = "suggest" then some suggestScenario
  else none

/-- `trigger_emotion`: formats the scenario template (the formatted prompt is
taken as an argument; context assembly never consults the provider), calls the
engine with the scenario settings, and converts an exception raised by that
call into the fallback string. -/
def trigger_emotion (sc : EmotionScenario) (cfg : AIConfig) (oracle : ModelOracle)
    (prompt : String) : PyVal :=
  match EmotionEngine.generate cfg oracle prompt sc.max_tokens sc.temperature sc.stream with
  | .ok v => v
  | .error e => .str ("（AI 暂不可用：" ++ e ++ "）")

/-- A provider whose every invocation raises `e`. -/
def failingOracle (e : String) : ModelOracle :=
  { complete := fun _ => .error e, chunks := fun _ => .error e }

/-- A concrete configuration. -/
def cfg0 : AIConfig :=
  { api_key := "k", model := "glm-4.6", max_tokens := 300, temperature := 7/10 }

/-- Does a `trigger_emotion` result carry the AI-unavailable fallback marker? -/
def isUnavailableFallback : PyVal → Bool
  | .str s => containsSub s.data ("AI 暂不可用").data
  | .gen _ => false

lemma isPrefixOf_append_self (l r : List Char) : l.isPrefixOf (l ++ r) = true := by
  induction l with
  | nil => simp
  | cons a t ih => simp [ih]

lemma containsSub_of_isPrefixOf {l needle : List Char}
    (h : needle.isPrefixOf l = true) : containsSub l needle = true := by
  cases l with
  | nil =>
    cases needle with
    | nil => rfl
    | cons a t => simp [List.isPrefixOf] at h
  | cons a t => simp [containsSub, h]

lemma containsSub_append_left (xs : List Char) {ys needle : List Char}
    (h : containsSub ys needle = true) : containsSub (xs ++ ys) needle = true := by
  induction xs with
  | nil => exact h
  | cons a t ih => simp [containsSub, ih]

/-- C3 counterexample: for the streaming `suggest` scenario of the registry,
`trigger_emotion` returns the generator object itself — the try/except only
wraps the construction of the generator, so an exception raised by the model
invocation engine surfaces at consumption time instead of being converted
into an AI-unavailable fallback string. -/
theorem C3_streaming_scenario_not_caught :
    EMOTION_SCENARIOS ("suggest") = some suggestScenario
    ∧ trigger_emotion suggestScenario cfg0 (failingOracle ("boom")) ("p")
        = PyVal.gen (Except.error ("boom"))
    ∧ isUnavailableFallback
        (trigger_emotion suggestScenario cfg0 (failingOracle ("boom")) ("p")) = false :=
  ⟨rfl, rfl, rfl⟩

/-- C3 amended: for every registry scenario whose stream flag is false (that
is, `task_added`, `task_completed` and `list_cleared`, but not the streaming
`suggest` scenario), any exception raised by the model invocation engine is
caught by `trigger_emotion` and converted into the fallback string, which
contains the AI-unavailable marker and embeds the underlying error detail. -/
theorem C3_nonstreaming_fallback (key : String) (sc : EmotionScenario)
    (_hk : EMOTION_SCENARIOS key = some sc) (hs : sc.stream = false)
    (e prompt : String) (cfg : AIConfig) :
    trigger_emotion sc cfg (failingOracle e) prompt
        = .str ("（AI 暂不可用：" ++ e ++ "）")
    ∧ containsSub ("（AI 暂不可用：" ++ e ++ "）").data ("AI 暂不可用").data = true
    ∧ containsSub ("（AI 暂不可用：" ++ e ++ "）").data e.data = true := by
  refine ⟨?_, ?_, ?_⟩
  · simp [trigger_emotion, EmotionEngine.generate, hs, failingOracle, Except.map]
  · have hsplit : ("（AI 暂不可用：" ++ e ++ "）").data
        = "（".data ++ ("AI 暂不可用".data ++ ("：".data ++ (e.data ++ "）".data))) := by
      have h1 : ("（AI 暂不可用：" : String)
          = "（" ++ "AI 暂不可用" ++ "：" := by decide
      rw [show ("（AI 暂不可用：" ++ e ++ "）")
          = "（" ++ "AI 暂不可用" ++ "：" ++ e ++ "）" from by rw [← h1]]
      simp [String.data_append]
    rw [hsplit]
    exact containsSub_append_left _
      (containsSub_of_isPrefixOf (isPrefixOf_append_self _ _))
  · have hsplit : ("（AI 暂不可用：" ++ e ++ "）").data
        = "（AI 暂不可用：".data ++ (e.data ++ "）".data) := by
      simp [String.data_append]
    rw [hsplit]
    exact containsSub_append_left _
      (containsSub_of_isPrefixOf (isPrefixOf_append_self _ _))

/-- Witness for `C3_nonstreaming_fallback` at the `task_completed` scenario. -/
theorem C3_nonstreaming_fallback_witness :
    trigger_emotion
        { name := "任务完成", prompt_template := PROMPT_TASK_COMPLETED, max_tokens := 60 }
        cfg0 (failingOracle ("API 错误")) ("提示词")
      = .str ("（AI 暂不可用：" ++ "API 错误" ++ "）")
    ∧ containsSub ("（AI 暂不可用：" ++ "API 错误" ++ "）").data ("AI 暂不可用").data = true
    ∧ containsSub ("（AI 暂不可用：" ++ "API 错误" ++ "）").data ("API 错误").data = true :=
  C3_nonstreaming_fallback ("task_completed")
    { name := "任务完成", prompt_template := PROMPT_TASK_COMPLETED, max_tokens := 60 }
    rfl rfl ("API 错误") ("提示词") cfg0

/-! ## `AIHandler.suggest_next` / `suggest_next_stream` (claim C7)

Each function returns its result together with the list of provider requests
it issued; the oracle gives the provider's answer to a request. -/

/-- One line of the formatted pending-task list. -/
def todoLine (t : TodoItem) : String :=
  "- [" ++ toString t.id ++ "] " ++ t.text ++ " (优先级: " ++ t.priority ++ ", "
    ++ (if t.done then "已完成" else "未完成") ++ ")"

/-- `PROMPT_SUGGEST.format(todos=todos_text)`. -/
def PROMPT_SUGGEST (todos_text : String) : String :=
  "根据待办任务列表，分析并建议下一步做哪个任务。\n\n任务列表：\n" ++ todos_text
    ++ "\n\n要求：\n1. 只建议一个任务\n2. 分析理由（100-200字）\n3. 从优先级、紧急程度、心理阻力三个维度分析\n4. 输出格式：💡 建议优先完成 [任务ID]\n\n直接输出建议："

/-- `AIHandler.suggest_next`: filters out completed tasks, short-circuits on
an empty pending list, otherwise issues exactly one provider request. -/
def suggest_next (cfg : AIConfig) (oracle : ModelParams → String)
    (todos : List TodoItem) : String × List ModelParams :=
  let incomplete := todos.filter (fun t => !t.done)
  if incomplete.isEmpty then ("🎉 所有任务已完成！", [])
  else
    let params : ModelParams :=
      { model := cfg.model
        messages := [("user",
          PROMPT_SUGGEST (String.intercalate "\n" (incomplete.map todoLine)))]
        max_tokens := cfg.max_tokens
        temperature := 7/10
        stream := false
        thinking_disabled := should_disable_thinking cfg }
    (pyStrip (oracle params), [params])

/-- `AIHandler.suggest_next_stream`: same short-circuit; in the streaming
case the yielded fragments are the non-empty delta contents. -/
def suggest_next_stream (cfg : AIConfig) (chunkOracle : ModelParams → List String)
    (todos : List TodoItem) : List String × List ModelParams :=
  let incomplete := todos.filter (fun t => !t.done)
  if incomplete.isEmpty then (["🎉 所有任务已完成！"], [])
  else
    let params : ModelParams :=
      { model := cfg.model
        messages := [("user",
          PROMPT_SUGGEST (String.intercalate "\n" (incomplete.map todoLine)))]
        max_tokens := cfg.max_tokens
        temperature := 7/10
        stream := true
        thinking_disabled := should_disable_thinking cfg }
    ((chunkOracle params).filter (fun c => c ≠ ""), [params])

/-- C7: whenever every task in the list is done (including the empty list),
both the blocking and the streaming suggestion path return/yield exactly the
fixed celebratory message and issue no provider request at all. -/
theorem C7_zero_pending_short_circuit (cfg : AIConfig)
    (oracle : ModelParams → String) (chunkOracle : ModelParams → List String)
    (todos : List TodoItem) (h : ∀ t ∈ todos, t.done = true) :
    suggest_next cfg oracle todos = ("🎉 所有任务已完成！", [])
    ∧ suggest_next_stream cfg chunkOracle todos = (["🎉 所有任务已完成！"], []) := by
  have hemp : todos.filter (fun t => !t.done) = [] := by
    rw [List.filter_eq_nil_iff]
    intro t ht
    simp [h t ht]
  constructor
  · simp [suggest_next, hemp]
  · simp [suggest_next_stream, hemp]

/-- Witness for `C7_zero_pending_short_circuit` at a list whose single task
is done. -/
theorem C7_zero_pending_short_circuit_witness :
    suggest_next cfg0 (fun _ => "whatever") [⟨1, "写代码", "high", true⟩]
      = ("🎉 所有任务已完成！", [])
    ∧ suggest_next_stream cfg0 (fun _ => ["a", "b"]) [⟨1, "写代码", "high", true⟩]
      = (["🎉 所有任务已完成！"], []) :=
  C7_zero_pending_short_circuit cfg0 (fun _ => "whatever") (fun _ => ["a", "b"])
    [⟨1, "写代码", "high", true⟩] (by decide)

/-! ## `trigger_unified_analysis` (claim C5)

The provider call outcome (the engine's stripped completion text or the raised
exception) is the `oracle` argument; Python's `json.loads` on the extracted
payload is the `jsonLoads` oracle (it either returns the parsed value or
raises `JSONDecodeError` with some message).  The prompt assembly and request
parameters (`max_tokens=800`, `temperature=0.7`, `stream=False`) do not
influence the failure-mode behaviour and are inert here. -/

/-- Index of the first occurrence of `c` (Python `str.find`-style). -/
def firstIdx (s : List Char) (c : Char) : Option Nat :=
  s.findIdx? (fun x => x == c)

/-- Index of the last occurrence of `c`. -/
def lastIdx (s : List Char) (c : Char) : Option Nat :=
  (s.reverse.findIdx? (fun x => x == c)).map (fun k => s.length - 1 - k)

/-- The greedy DOTALL regex search for a brace-delimited payload
(`re.search` of an opening brace, anything, a closing brace): it matches from
the first opening brace to the last closing brace, provided the first opening
brace comes before the last closing brace. -/
def findBraceSpan (s : List Char) : Option (List Char) :=
  match firstIdx s ('{'), lastIdx s ('}') with
  | some i, some j => if i < j then some ((s.drop i).take (j + 1 - i)) else none
  | _, _ => none

/-- The placeholder structured result returned when no structured payload can
be located in the completion text ("not enough data yet"). -/
def notEnoughDataResult (response : String) : Json :=
  .obj [("user_type", .obj [("execution_pattern", .str "待观察"),
          ("time_preference", .str "待观察"), ("activity_pattern", .str "待观察")]),
        ("strengths_weaknesses", .obj [("strengths", .arr [.str "正在积累数据"]),
          ("weaknesses", .arr []), ("suggestions", .arr [.str "继续坚持"])]),
        ("risk_alerts", .arr []),
        ("task_feedback",
          .str (if response.length > 50 then response.take 50 else response))]

/-- The fallback structured result produced by the `except` clause. -/
def aiUnavailableResult (e : String) : Json :=
  .obj [("user_type", .obj [("execution_pattern", .str "未知"),
          ("time_preference", .str "未知"), ("activity_pattern", .str "未知")]),
        ("strengths_weaknesses", .obj [("strengths", .arr []),
          ("weaknesses", .arr []), ("suggestions", .arr [])]),
        ("risk_alerts", .arr []),
        ("task_feedback", .str ("（AI 暂不可用：" ++ e ++ "）"))]

/-- `trigger_unified_analysis`: the `try` block spans both the provider call
and the `json.loads` of the located payload, so a `JSONDecodeError` raised on
a located payload lands in the same `except Exception` clause as a provider
failure; only the no-payload case produces the placeholder result. -/
def trigger_unified_analysis (oracle : Except String String)
    (jsonLoads : String → Except String Json) : Json :=
  match oracle with
  | .error e => aiUnavailableResult e
  | .ok raw =>
    let response := pyStrip raw
    match findBraceSpan response.data with
    | none => notEnoughDataResult response
    | some payload =>
      match jsonLoads (String.mk payload) with
      | .ok j => j
      | .error e => aiUnavailableResult e

/-- C5 counterexample: a completion text containing a locatable but
unparseable payload yields a result identical to the one produced by a
provider failure with the same message — the caller cannot tell the two
apart, contrary to the claim. -/
theorem C5_parse_fail_indistinguishable :
    trigger_unified_analysis (Except.ok ("{a}")) (fun _ => Except.error ("bad"))
      = trigger_unified_analysis (Except.error ("bad")) (fun _ => Except.ok Json.null)
    ∧ trigger_unified_analysis (Except.ok ("{a}")) (fun _ => Except.error ("bad"))
      = aiUnavailableResult ("bad") :=
  ⟨rfl, rfl⟩

/-- C5 amended: unified analysis never raises (it is a total function into
structured results); a provider failure yields the AI-unavailable fallback; a
completion with no locatable payload yields the distinct "not enough data
yet" placeholder; but a located payload that fails JSON parsing is caught by
the same except clause and reported as the AI-unavailable fallback,
indistinguishable from a provider failure. -/
theorem C5_unified_failure_modes (jsonLoads : String → Except String Json)
    (e raw : String) :
    trigger_unified_analysis (Except.error e) jsonLoads = aiUnavailableResult e
    ∧ (findBraceSpan (pyStrip raw).data = none →
        trigger_unified_analysis (Except.ok raw) jsonLoads
          = notEnoughDataResult (pyStrip raw))
    ∧ (∀ payload m, findBraceSpan (pyStrip raw).data = some payload →
        jsonLoads (String.mk payload) = Except.error m →
        trigger_unified_analysis (Except.ok raw) jsonLoads = aiUnavailableResult m)
    ∧ (∀ r2 e2 : String, notEnoughDataResult r2 ≠ aiUnavailableResult e2) := by
  refine ⟨rfl, ?_, ?_, ?_⟩
  · intro h
    simp [trigger_unified_analysis, h]
  · intro payload m h1 h2
    simp [trigger_unified_analysis, h1, h2]
  · intro r2 e2 hx
    simp [notEnoughDataResult, aiUnavailableResult] at hx

/-- Witness for `C5_unified_failure_modes` at concrete inputs for each
failure mode. -/
theorem C5_unified_failure_modes_witness :
    trigger_unified_analysis (Except.error ("boom")) (fun _ => Except.ok Json.null)
        = aiUnavailableResult ("boom")
    ∧ trigger_unified_analysis (Except.ok ("暂无数据")) (fun _ => Except.ok Json.null)
        = notEnoughDataResult ("暂无数据")
    ∧ trigger_unified_analysis (Except.ok ("{a}")) (fun _ => Except.error ("bad"))
        = aiUnavailableResult ("bad")
    ∧ notEnoughDataResult ("r") ≠ aiUnavailableResult ("e") :=
  ⟨(C5_unified_failure_modes (fun _ => Except.ok Json.null) ("boom") ("x")).1,
   (C5_unified_failure_modes (fun _ => Except.ok Json.null) ("z") ("暂无数据")).2.1
     (by decide),
   (C5_unified_failure_modes (fun _ => Except.error ("bad")) ("z") ("{a}")).2.2.1
     (("{a}" : String).data) ("bad") (by decide) rfl,
   (C5_unified_failure_modes (fun _ => Except.ok Json.null) ("z") ("x")).2.2.2
     ("r") ("e")⟩

/-! ## `generate_parallel` (claim C9)

`generate_parallel` creates one `generate_async` coroutine per prompt (in
input order) and `asyncio.gather`s them.  The cooperative execution is
modelled by an explicit completion schedule: `order` lists the task indices
in the order their provider calls complete.  Each completion stores its
result in the slot of its own task; `gather` returns the slot list (in input
order) once every task has completed.  The oracle maps (task index, prompt)
to the provider's completion text, so results may differ per task but are
fixed regardless of when the task completes. -/

/-- Collect a slot list into a result list, available only when every slot is
filled (the join-all barrier of `asyncio.gather`). -/
def allSome {α : Type} : List (Option α) → Option (List α)
  | [] => some []
  | some x :: rest => (allSome rest).map (x :: ·)
  | none :: _ => none

/-- `EmotionEngine.generate_async`: one non-streaming call, stripped. -/
def generate_async (oracle : Nat → String → String) (i : Nat) (p : String) : String :=
  pyStrip (oracle i p)

/-- `EmotionEngine.generate_parallel` under completion schedule `order`. -/
def generate_parallel (prompts : List String) (oracle : Nat → String → String)
    (order : List Nat) : Option (List String) :=
  let slots : List (Option String) := List.replicate prompts.length none
  let filled := order.foldl
    (fun acc i => acc.set i (some (generate_async oracle i (prompts.getD i ""))))
    slots
  allSome filled

lemma allSome_map_some {α : Type} (l : List α) : allSome (l.map some) = some l := by
  induction l with
  | nil => rfl
  | cons x xs ih => simp [allSome, ih]

lemma foldl_set_getElem (prompts : List String) (oracle : Nat → String → String)
    (order : List Nat) :
    ∀ (acc : List (Option String)) (j : Nat),
      (order.foldl (fun acc i =>
          acc.set i (some (generate_async oracle i (prompts.getD i "")))) acc)[j]?
        = if j ∈ order ∧ j < acc.length then
            some (some (generate_async oracle j (prompts.getD j "")))
          else acc[j]? := by
  induction order with
  | nil =>
    intro acc j
    simp
  | cons i rest ih =>
    intro acc j
    rw [List.foldl_cons, ih]
    rcases Decidable.em (j ∈ rest ∧ j < acc.length) with hin | hout
    · rw [if_pos (by simpa using hin), if_pos ⟨List.mem_cons_of_mem i hin.1, hin.2⟩]
    · rw [if_neg (by simpa using hout)]
      rw [List.getElem?_set]
      by_cases hij : i = j
      · subst hij
        by_cases hlen : i < acc.length
        · rw [if_pos rfl, if_pos hlen,
            if_pos ⟨List.mem_cons_self i rest, hlen⟩]
        · rw [if_pos rfl, if_neg hlen, if_neg (fun hc => hlen hc.2),
            List.getElem?_eq_none (by omega)]
      · rw [if_neg hij]
        have : ¬(j ∈ i :: rest ∧ j < acc.length) := by
          intro hc
          rcases List.mem_cons.mp hc.1 with h1 | h1
          · exact hij h1.symm
          · exact hout ⟨h1, hc.2⟩
        rw [if_neg this]

/-- C9: under every completion schedule that completes each of the N tasks
exactly once — in any order — `generate_parallel` waits for all completions
and returns exactly N results whose order corresponds to the input prompt
order (slot `i` holds the stripped completion of prompt `i`); and a schedule
that leaves some task uncompleted produces no result at all (join-all). -/
theorem C9_generate_parallel_ordered (prompts : List String)
    (oracle : Nat → String → String) (order : List Nat)
    (hperm : order.Perm (List.range prompts.length)) :
    generate_parallel prompts oracle order
      = some ((List.range prompts.length).map
          (fun i => generate_async oracle i (prompts.getD i ""))) := by
  unfold generate_parallel
  have hmem : ∀ j, j ∈ order ↔ j < prompts.length := by
    intro j
    rw [hperm.mem_iff, List.mem_range]
  have hfill : (order.foldl (fun acc i =>
      acc.set i (some (generate_async oracle i (prompts.getD i ""))))
        (List.replicate prompts.length none))
      = (List.range prompts.length).map
          (fun i => some (generate_async oracle i (prompts.getD i ""))) := by
    apply List.ext_getElem?
    intro j
    rw [foldl_set_getElem]
    by_cases hj : j < prompts.length
    · rw [if_pos ⟨(hmem j).mpr hj, by simpa using hj⟩, List.getElem?_map,
        List.getElem?_range hj]
      rfl
    · rw [if_neg (fun hc => hj (by simpa using hc.2)),
        List.getElem?_eq_none (by simpa using Nat.le_of_not_lt hj),
        List.getElem?_eq_none (by simp [Nat.le_of_not_lt hj])]
  dsimp only
  rw [hfill]
  have hsplit : (List.range prompts.length).map
        (fun i => some (generate_async oracle i (prompts.getD i "")))
      = ((List.range prompts.length).map
          (fun i => generate_async oracle i (prompts.getD i ""))).map some := by
    rw [List.map_map]
    rfl
  rw [hsplit, allSome_map_some]

/-- Witness for `C9_generate_parallel_ordered`: three prompts completing in
the order 2, 0, 1 still produce the three results in input order. -/
theorem C9_generate_parallel_ordered_witness :
    generate_parallel ["p1", "p2", "p3"] (fun i p => p ++ toString i) [2, 0, 1]
      = some ["p10", "p21", "p32"] := by
  have h := C9_generate_parallel_ordered ["p1", "p2", "p3"]
    (fun i p => p ++ toString i) [2, 0, 1] (by decide)
  rw [h]
  rfl

/-! ## Anxiety detection (claim C4)

`detect_emotion` from `task_analyzer.py`.  Keyword weights are exact decimal
literals, modelled in `ℚ`.  Lowercasing is character-wise (`str.lower` and
`Char.toLower` agree on the ASCII and CJK characters involved).  Python's
stable `sorted(key=len, reverse=True)` is modelled by a stable insertion
sort that keeps earlier entries before later entries of equal length. -/

/-- `ANXIETY_KEYWORDS` in dict insertion order (all keys distinct). -/
def ANXIETY_KEYWORDS : List (String × ℚ) :=
  [("必须", 55/100), ("死定了", 55/100), ("来不及", 55/100), ("来不及了", 55/100),
   ("紧急", 35/100), ("马上", 35/100), ("赶紧", 35/100), ("快点", 35/100),
   ("没办法", 2/10), ("崩溃", 2/10), ("完蛋", 2/10),
   ("尽快", 1/10), ("抓紧", 1/10), ("最好", 1/10), ("应该", 1/10),
   ("deadline", 3/10), ("urgent", 3/10), ("emergency", 6/10)]

/-- Stable insertion for descending keyword length: walk past strictly longer
entries only, so earlier entries stay before later entries of equal length. -/
def insertByLenDesc (x : String × ℚ) : List (String × ℚ) → List (String × ℚ)
  | [] => [x]
  | y :: ys =>
    if x.1.length < y.1.length then y :: insertByLenDesc x ys else x :: y :: ys

/-- Python `sorted(ANXIETY_KEYWORDS.items(), key=len, reverse=True)`. -/
def sortByLenDesc (l : List (String × ℚ)) : List (String × ℚ) :=
  l.foldr insertByLenDesc []

/-- The keyword processing order of `detect_emotion`. -/
def sorted_keywords : List (String × ℚ) := sortByLenDesc ANXIETY_KEYWORDS

/-- The running state of the scan: accumulated `anxiety_level`, the
`found_keywords` list in acceptance order, and the accepted `matched_positions`. -/
structure ScanSt where
  level : ℚ
  found : List String
  spans : List (Nat × Nat)
  deriving Repr, DecidableEq

/-- The `while True` find-loop of `detect_emotion` for one keyword, with
explicit fuel: each iteration advances `start` to `pos + 1`, so
`textL.length + 1` steps always suffice. -/
def scanKeyword (textL kwL : List Char) (kwOrig : String) (w : ℚ) :
    ScanSt → Nat → Nat → ScanSt
  | st, _, 0 => st
  | st, start, fuel + 1 =>
    match findFrom textL kwL start with
    | none => st
    | some pos =>
      let kend := pos + kwOrig.length
      let ov := st.spans.any (fun sp => !(decide (kend ≤ sp.1) || decide (sp.2 ≤ pos)))
      let st' :=
        if ov then st
        else ⟨st.level + w, st.found ++ [kwOrig], st.spans ++ [(pos, kend)]⟩
      scanKeyword textL kwL kwOrig w st' (pos + 1) fuel

/-- The scan state after `detect_emotion` has processed every keyword. -/
def detectState (text : String) : ScanSt :=
  let textL := (pyLower text).data
  sorted_keywords.foldl
    (fun st kw => scanKeyword textL (pyLower kw.1).data kw.1 kw.2 st 0 (textL.length + 1))
    ⟨0, [], []⟩

/-- `detect_emotion text` as `(anxiety_level, keywords)`: the accumulated
level clamped above by 1 and the accepted keywords in acceptance order. -/
def detect_emotion (text : String) : ℚ × List String :=
  (min (detectState text).level 1, (detectState text).found)

/-- All substring occurrence positions of `kwL` in `textL` at or after
`start`, in ascending order: the specification's "scans all substring
occurrences left to right". -/
def occurrencesFrom (textL kwL : List Char) (start : Nat) : List Nat :=
  if start ≤ textL.length then
    (if kwL.isPrefixOf (textL.drop start) then [start] else [])
      ++ occurrencesFrom textL kwL (start + 1)
  else []
termination_by textL.length + 1 - start

/-- Specification step: an occurrence contributes its weight, its keyword and
its span exactly when its character span `[pos, pos + |kw|)` intersects no
previously accepted span. -/
def specAcceptStep (kwOrig : String) (w : ℚ) (st : ScanSt) (pos : Nat) : ScanSt :=
  let kend := pos + kwOrig.length
  if st.spans.any (fun sp => decide (pos < sp.2) && decide (sp.1 < kend)) then st
  else ⟨st.level + w, st.found ++ [kwOrig], st.spans ++ [(pos, kend)]⟩

/-- Specification scan for one keyword: fold the acceptance step over all its
occurrences, left to right. -/
def specScanKeyword (textL kwL : List Char) (kwOrig : String) (w : ℚ)
    (st : ScanSt) : ScanSt :=
  (occurrencesFrom textL kwL 0).foldl (specAcceptStep kwOrig w) st

/-- The specification's description of `detect_emotion`: process keywords in
descending length order; per keyword scan all occurrences left to right,
accepting non-overlapping ones; return the weight sum clamped at 1 together
with the accepted keywords. -/
def specDetect (text : String) : ℚ × List String :=
  let textL := (pyLower text).data
  let final := sorted_keywords.foldl
    (fun st kw => specScanKeyword textL (pyLower kw.1).data kw.1 kw.2 st) ⟨0, [], []⟩
  (min final.level 1, final.found)
lemma findSub_here {hay needle : List Char} (h : needle.isPrefixOf hay = true) :
    findSub hay needle = some 0 := by
  unfold findSub
  rw [if_pos h]

lemma findSub_cons {a : Char} {t needle : List Char}
    (h : needle.isPrefixOf (a :: t) = false) :
    findSub (a :: t) needle = (findSub t needle).map (· + 1) := by
  conv_lhs => unfold findSub
  rw [if_neg (by simp [h])]

lemma findSub_nil {needle : List Char} (hk : needle ≠ []) :
    findSub [] needle = none := by
  rcases needle with _ | ⟨a, as⟩
  · exact absurd rfl hk
  · unfold findSub
    rw [if_neg (by simp)]

lemma findFrom_gt (textL kwL : List Char) (hk : kwL ≠ []) (start : Nat)
    (h : textL.length < start) : findFrom textL kwL start = none := by
  unfold findFrom
  rw [List.drop_eq_nil_of_le (Nat.le_of_lt h), findSub_nil hk]
  rfl

lemma findFrom_succ (textL kwL : List Char) (hk : kwL ≠ []) (start : Nat)
    (h : start ≤ textL.length) :
    findFrom textL kwL start
      = if kwL.isPrefixOf (textL.drop start) then some start
        else findFrom textL kwL (start + 1) := by
  by_cases hp : kwL.isPrefixOf (textL.drop start) = true
  · rw [if_pos hp]
    unfold findFrom
    rw [findSub_here hp]
    simp
  · rw [if_neg hp]
    have hp' : kwL.isPrefixOf (textL.drop start) = false := by
      rwa [Bool.not_eq_true] at hp
    rcases Nat.lt_or_ge start textL.length with hlt | hge
    · unfold findFrom
      rw [List.drop_eq_getElem_cons hlt] at hp' ⊢
      rw [findSub_cons hp', Option.map_map]
      congr 1
      funext k
      simp only [Function.comp_apply]
      omega
    · have hstart : start = textL.length := Nat.le_antisymm h hge
      have h1 : findFrom textL kwL start = none := by
        unfold findFrom
        rw [hstart, List.drop_length, findSub_nil hk]
        rfl
      rw [h1, findFrom_gt textL kwL hk (start + 1) (by omega)]

lemma findFrom_ge_start (textL kwL : List Char) (start pos : Nat)
    (hf : findFrom textL kwL start = some pos) : start ≤ pos := by
  unfold findFrom at hf
  obtain ⟨k, _, hkk⟩ := Option.map_eq_some'.mp hf
  omega

lemma occurrencesFrom_le (textL kwL : List Char) (start : Nat)
    (h : start ≤ textL.length) :
    occurrencesFrom textL kwL start
      = (if kwL.isPrefixOf (textL.drop start) then [start] else [])
          ++ occurrencesFrom textL kwL (start + 1) := by
  rw [occurrencesFrom, if_pos h]

lemma occurrencesFrom_gt (textL kwL : List Char) (start : Nat)
    (h : textL.length < start) : occurrencesFrom textL kwL start = [] := by
  rw [occurrencesFrom, if_neg (by omega)]

lemma occs_nil_of_none (textL kwL : List Char) (hk : kwL ≠ []) :
    ∀ fuel start, textL.length + 1 - start ≤ fuel →
      findFrom textL kwL start = none → occurrencesFrom textL kwL start = [] := by
  intro fuel
  induction fuel with
  | zero =>
    intro start hb _
    exact occurrencesFrom_gt _ _ _ (by omega)
  | succ fuel ih =>
    intro start hb hf
    rcases le_or_lt start textL.length with hle | hgt
    · rw [findFrom_succ textL kwL hk start hle] at hf
      by_cases hp : kwL.isPrefixOf (textL.drop start) = true
      · rw [if_pos hp] at hf
        exact absurd hf (by simp)
      · rw [if_neg hp] at hf
        rw [occurrencesFrom_le _ _ _ hle, if_neg hp, List.nil_append]
        exact ih (start + 1) (by omega) hf
    · exact occurrencesFrom_gt _ _ _ hgt

lemma occs_cons_of_some (textL kwL : List Char) (hk : kwL ≠ []) :
    ∀ fuel start pos, textL.length + 1 - start ≤ fuel →
      findFrom textL kwL start = some pos →
      occurrencesFrom textL kwL start
        = pos :: occurrencesFrom textL kwL (pos + 1) := by
  intro fuel
  induction fuel with
  | zero =>
    intro start pos hb hf
    rw [findFrom_gt textL kwL hk start (by omega)] at hf
    exact absurd hf (by simp)
  | succ fuel ih =>
    intro start pos hb hf
    rcases le_or_lt start textL.length with hle | hgt
    · rw [findFrom_succ textL kwL hk start hle] at hf
      by_cases hp : kwL.isPrefixOf (textL.drop start) = true
      · rw [if_pos hp] at hf
        obtain rfl : start = pos := by injection hf
        rw [occurrencesFrom_le _ _ _ hle, if_pos hp]
        rfl
      · rw [if_neg hp] at hf
        rw [occurrencesFrom_le _ _ _ hle, if_neg hp, List.nil_append]
        exact ih (start + 1) pos (by omega) hf
    · rw [findFrom_gt textL kwL hk start hgt] at hf
      exact absurd hf (by simp)

lemma overlap_bool (pos kend s e : Nat) :
    (!(decide (kend ≤ s) || decide (e ≤ pos)))
      = (decide (pos < e) && decide (s < kend)) := by
  rw [Bool.eq_iff_iff]
  simp only [Bool.not_eq_true', Bool.or_eq_false_iff, decide_eq_false_iff_not,
    Bool.and_eq_true, decide_eq_true_eq]
  omega

lemma scanKeyword_eq_spec (textL kwL : List Char) (kwOrig : String) (w : ℚ)
    (hk : kwL ≠ []) :
    ∀ fuel start st, textL.length + 1 - start ≤ fuel →
      scanKeyword textL kwL kwOrig w st start fuel
        = (occurrencesFrom textL kwL start).foldl (specAcceptStep kwOrig w) st := by
  intro fuel
  induction fuel with
  | zero =>
    intro start st hb
    rw [occurrencesFrom_gt _ _ _ (by omega)]
    rfl
  | succ fuel ih =>
    intro start st hb
    rcases hf : findFrom textL kwL start with _ | pos
    · rw [occs_nil_of_none textL kwL hk (fuel + 1) start hb hf]
      unfold scanKeyword
      rw [hf]
      rfl
    · have hstart_le : start ≤ textL.length := by
        by_contra hgt
        rw [findFrom_gt textL kwL hk start (by omega)] at hf
        exact Option.noConfusion hf
      have hpos := findFrom_ge_start textL kwL start pos hf
      rw [occs_cons_of_some textL kwL hk (fuel + 1) start pos hb hf,
        List.foldl_cons]
      unfold scanKeyword
      rw [hf]
      have hcond : (fun sp : Nat × Nat =>
            !(decide (pos + kwOrig.length ≤ sp.1) || decide (sp.2 ≤ pos)))
          = (fun sp : Nat × Nat =>
            decide (pos < sp.2) && decide (sp.1 < pos + kwOrig.length)) :=
        funext (fun sp => overlap_bool pos (pos + kwOrig.length) sp.1 sp.2)
      have hstep : (if st.spans.any (fun sp =>
            !(decide (pos + kwOrig.length ≤ sp.1) || decide (sp.2 ≤ pos))) then st
          else ⟨st.level + w, st.found ++ [kwOrig],
            st.spans ++ [(pos, pos + kwOrig.length)]⟩)
          = specAcceptStep kwOrig w st pos := by
        unfold specAcceptStep
        rw [hcond]
      dsimp only
      rw [hstep]
      exact ih (pos + 1) _ (by omega)

lemma foldl_scan_eq_spec (textL : List Char) :
    ∀ (kws : List (String × ℚ)) (st : ScanSt),
      (∀ kw ∈ kws, (pyLower kw.1).data ≠ []) →
      kws.foldl (fun st kw =>
          scanKeyword textL (pyLower kw.1).data kw.1 kw.2 st 0 (textL.length + 1)) st
        = kws.foldl (fun st kw =>
            specScanKeyword textL (pyLower kw.1).data kw.1 kw.2 st) st := by
  intro kws
  induction kws with
  | nil => intro st _; rfl
  | cons kw rest ih =>
    intro st h
    rw [List.foldl_cons, List.foldl_cons,
      scanKeyword_eq_spec textL (pyLower kw.1).data kw.1 kw.2
        (h kw (List.mem_cons_self _ _)) (textL.length + 1) 0 st (by omega)]
    exact ih _ (fun k hk2 => h k (List.mem_cons_of_mem _ hk2))

lemma sorted_keywords_entries_nonempty :
    ∀ kw ∈ sorted_keywords, (pyLower kw.1).data ≠ [] := by decide

lemma insertByLenDesc_perm (x : String × ℚ) (l : List (String × ℚ)) :
    (insertByLenDesc x l).Perm (x :: l) := by
  induction l with
  | nil => exact List.Perm.refl _
  | cons y ys ih =>
    unfold insertByLenDesc
    split
    · exact (ih.cons y).trans (List.Perm.swap x y ys)
    · exact List.Perm.refl _

lemma sortByLenDesc_perm (l : List (String × ℚ)) : (sortByLenDesc l).Perm l := by
  induction l with
  | nil => exact List.Perm.refl _
  | cons x xs ih =>
    exact (insertByLenDesc_perm x (sortByLenDesc xs)).trans (ih.cons x)

lemma containsSub_drop {textL kwL : List Char} (p : Nat)
    (h : kwL.isPrefixOf (textL.drop p) = true) : containsSub textL kwL = true := by
  induction textL generalizing p with
  | nil =>
    rw [List.drop_nil] at h
    cases kwL with
    | nil => rfl
    | cons a as => simp at h
  | cons a t ih =>
    cases p with
    | zero => exact containsSub_of_isPrefixOf h
    | succ q =>
      rw [List.drop_succ_cons] at h
      simp [containsSub, ih q h]

lemma occurrencesFrom_nil_of_not_contains (textL kwL : List Char)
    (h : containsSub textL kwL = false) :
    ∀ fuel start, textL.length + 1 - start ≤ fuel →
      occurrencesFrom textL kwL start = [] := by
  intro fuel
  induction fuel with
  | zero =>
    intro start hb
    exact occurrencesFrom_gt _ _ _ (by omega)
  | succ fuel ih =>
    intro start hb
    rcases le_or_lt start textL.length with hle | hgt
    · rw [occurrencesFrom_le _ _ _ hle]
      have hp : ¬kwL.isPrefixOf (textL.drop start) = true := by
        intro hc
        rw [containsSub_drop start hc] at h
        exact Bool.noConfusion h
      rw [if_neg hp, List.nil_append]
      exact ih (start + 1) (by omega)
    · exact occurrencesFrom_gt _ _ _ hgt

/-- Two accepted character spans do not overlap. -/
def spansDisjoint (a b : Nat × Nat) : Prop := a.2 ≤ b.1 ∨ b.2 ≤ a.1

lemma specAcceptStep_pairwise (kwOrig : String) (w : ℚ) (st : ScanSt) (pos : Nat)
    (h : st.spans.Pairwise spansDisjoint) :
    ((specAcceptStep kwOrig w st pos).spans).Pairwise spansDisjoint := by
  unfold specAcceptStep
  dsimp only
  split
  · exact h
  · rename_i hany
    have hfalse : st.spans.any (fun sp =>
        decide (pos < sp.2) && decide (sp.1 < pos + kwOrig.length)) = false := by
      rwa [← Bool.not_eq_true]
    rw [List.pairwise_append]
    refine ⟨h, List.pairwise_singleton _ _, ?_⟩
    intro sp hsp y hy
    rw [List.mem_singleton] at hy
    subst hy
    have hsp' := List.any_eq_false.mp hfalse sp hsp
    simp only [Bool.and_eq_true, decide_eq_true_eq, not_and] at hsp'
    unfold spansDisjoint
    omega

lemma foldl_specAccept_pairwise (kwOrig : String) (w : ℚ) :
    ∀ (ps : List Nat) (st : ScanSt), st.spans.Pairwise spansDisjoint →
      ((ps.foldl (specAcceptStep kwOrig w) st).spans).Pairwise spansDisjoint := by
  intro ps
  induction ps with
  | nil => intro st h; exact h
  | cons p rest ih =>
    intro st h
    rw [List.foldl_cons]
    exact ih _ (specAcceptStep_pairwise kwOrig w st p h)

lemma foldl_specScan_pairwise (textL : List Char) :
    ∀ (kws : List (String × ℚ)) (st : ScanSt), st.spans.Pairwise spansDisjoint →
      ((kws.foldl (fun st kw =>
          specScanKeyword textL (pyLower kw.1).data kw.1 kw.2 st) st).spans).Pairwise
        spansDisjoint := by
  intro kws
  induction kws with
  | nil => intro st h; exact h
  | cons kw rest ih =>
    intro st h
    rw [List.foldl_cons]
    exact ih _ (foldl_specAccept_pairwise kw.1 kw.2 _ st h)

/-- C4: `detect_emotion` coincides with the specification's description
(`specDetect`): keywords are processed in descending length order (every
later entry of the sorted table is no longer than every earlier one, and the
sorted table is a permutation of the keyword table); per keyword all substring occurrences are scanned left to
right and an occurrence contributes its weight, its keyword (in acceptance
order) and its span exactly when the span overlaps no previously accepted
span; the score is the accepted-weight sum clamped above by 1; a text
containing no keyword scores exactly 0 with an empty matched list; and the
accepted spans are pairwise non-overlapping, so a short keyword inside an
already accepted longer match is never double-counted. -/
theorem C4_detect_emotion_spec (text : String) :
    detect_emotion text = specDetect text
    ∧ List.Pairwise (fun a b : String × ℚ => b.1.length ≤ a.1.length) sorted_keywords
    ∧ sorted_keywords.Perm ANXIETY_KEYWORDS
    ∧ ((∀ kw ∈ ANXIETY_KEYWORDS,
          containsSub (pyLower text).data (pyLower kw.1).data = false) →
        detect_emotion text = (0, []))
    ∧ (detectState text).spans.Pairwise spansDisjoint := by
  have hmain : detectState text
      = sorted_keywords.foldl (fun st kw =>
          specScanKeyword (pyLower text).data (pyLower kw.1).data kw.1 kw.2 st)
        ⟨0, [], []⟩ := by
    unfold detectState
    exact foldl_scan_eq_spec (pyLower text).data sorted_keywords ⟨0, [], []⟩
      sorted_keywords_entries_nonempty
  refine ⟨?_, by decide, sortByLenDesc_perm _, ?_, ?_⟩
  · unfold detect_emotion specDetect
    rw [hmain]
  · intro hno
    have hnos : ∀ kw ∈ sorted_keywords,
        containsSub (pyLower text).data (pyLower kw.1).data = false :=
      fun kw hkw => hno kw ((sortByLenDesc_perm ANXIETY_KEYWORDS).subset hkw)
    have hfold : ∀ (kws : List (String × ℚ)) (st : ScanSt),
        (∀ kw ∈ kws, containsSub (pyLower text).data (pyLower kw.1).data = false) →
        kws.foldl (fun st kw =>
          specScanKeyword (pyLower text).data (pyLower kw.1).data kw.1 kw.2 st) st
          = st := by
      intro kws
      induction kws with
      | nil => intro st _; rfl
      | cons kw rest ih =>
        intro st h
        rw [List.foldl_cons]
        have hocc : occurrencesFrom (pyLower text).data (pyLower kw.1).data 0 = [] :=
          occurrencesFrom_nil_of_not_contains _ _ (h kw (List.mem_cons_self _ _))
            ((pyLower text).data.length + 1) 0 (by omega)
        have hid : specScanKeyword (pyLower text).data (pyLower kw.1).data
            kw.1 kw.2 st = st := by
          unfold specScanKeyword
          rw [hocc]
          rfl
        rw [hid]
        exact ih st (fun k hk2 => h k (List.mem_cons_of_mem _ hk2))
    unfold detect_emotion
    rw [hmain, hfold sorted_keywords ⟨0, [], []⟩ hnos]
    norm_num
  · rw [hmain]
    exact foldl_specScan_pairwise (pyLower text).data sorted_keywords
      ⟨0, [], []⟩ List.Pairwise.nil

/-- Witness for `C4_detect_emotion_spec` at a keyword-free text. -/
theorem C4_detect_emotion_spec_witness :
    (∀ kw ∈ ANXIETY_KEYWORDS,
        containsSub (pyLower ("安静的一天")).data (pyLower kw.1).data = false)
    ∧ detect_emotion ("安静的一天") = (0, []) :=
  ⟨by decide, (C4_detect_emotion_spec ("安静的一天")).2.2.2.1 (by decide)⟩

end JustDo
